import Mathlib

/-!
Verification of the two command-line scripts of the
`system-inventory-windows` repository:

* `check_file.py` — the Syntax Checker: decodes a file as UTF-16, parses
  the decoded text as JSON and reports validity;
* `verify_json_file.py` — the Schema Validator: runs a linear pipeline of
  existence check, emptiness check, raw byte preview, UTF-16 decode, JSON
  parse, and validation against the external `AddUpdateRequest` schema.

The scripts call three external collaborators (Python's `utf-16` codec,
`json` parser and the `maestro_api_models` schema library).  The codec is
modelled concretely from the UTF-16 standard (as used by Python's
`utf-16` codec on a little-endian platform); the JSON parser and the
schema validator are parameters of the embedding, exactly as the scripts
consume them: opaque functions that either return a value or raise.

Bytes and decoded code points are modelled as natural numbers; decoded
text is a list of code points.  Printed lines and log records are kept
structurally (an inductive of the script's f-string templates together
with a render function producing the literal strings), and the linear
control flow is recorded as the list of pipeline stages entered.
-/

namespace SysInv

/-- Pair a byte list into 16-bit code units, little-endian.
Fails (like Python's codec) on a trailing odd byte. -/
def toUnitsLE : List Nat → Except Unit (List Nat)
  | [] => .ok []
  | [_] => .error ()
  | a :: b :: rest => (toUnitsLE rest).map (fun us => (a + 256 * b) :: us)

/-- Pair a byte list into 16-bit code units, big-endian. -/
def toUnitsBE : List Nat → Except Unit (List Nat)
  | [] => .ok []
  | [_] => .error ()
  | a :: b :: rest => (toUnitsBE rest).map (fun us => (256 * a + b) :: us)

/-- Combine UTF-16 code units into code points: a high surrogate must be
followed by a low surrogate; a lone surrogate is a decode error. -/
def combineUnits : List Nat → Except Unit (List Nat)
  | [] => .ok []
  | u :: rest =>
    if 0xD800 ≤ u ∧ u ≤ 0xDBFF then
      match rest with
      | [] => .error ()
      | v :: rest2 =>
        if 0xDC00 ≤ v ∧ v ≤ 0xDFFF then
          (combineUnits rest2).map
            (fun cs => (0x10000 + (u - 0xD800) * 0x400 + (v - 0xDC00)) :: cs)
        else .error ()
    else if 0xDC00 ≤ u ∧ u ≤ 0xDFFF then .error ()
    else (combineUnits rest).map (fun cs => u :: cs)

/-- Python's `utf-16` codec: a leading byte-order mark selects the byte
order (and is stripped); without one, native order is used — modelled as
little-endian, the order of the platforms the scripts run on. -/
def decodeUtf16 (bytes : List Nat) : Except Unit (List Nat) :=
  match bytes with
  | 0xFF :: 0xFE :: rest => toUnitsLE rest >>= combineUnits
  | 0xFE :: 0xFF :: rest => toUnitsBE rest >>= combineUnits
  | bs => toUnitsLE bs >>= combineUnits

/-- UTF-8 decoding (used only to state that a byte string is a valid
UTF-8 encoding of some text).  Rejects continuation-byte errors, overlong
forms, surrogate code points and out-of-range values. -/
def decodeUtf8 : List Nat → Except Unit (List Nat)
  | [] => .ok []
  | b :: rest =>
    if b < 0x80 then (decodeUtf8 rest).map (fun cs => b :: cs)
    else if b < 0xC2 then .error ()
    else if b < 0xE0 then
      match rest with
      | c :: rest2 =>
        if 0x80 ≤ c ∧ c < 0xC0 then
          (decodeUtf8 rest2).map (fun cs => ((b - 0xC0) * 64 + (c - 0x80)) :: cs)
        else .error ()
      | _ => .error ()
    else if b < 0xF0 then
      match rest with
      | c :: d :: rest2 =>
        if 0x80 ≤ c ∧ c < 0xC0 ∧ 0x80 ≤ d ∧ d < 0xC0 then
          let cp := (b - 0xE0) * 4096 + (c - 0x80) * 64 + (d - 0x80)
          if 0x800 ≤ cp ∧ ¬ (0xD800 ≤ cp ∧ cp ≤ 0xDFFF) then
            (decodeUtf8 rest2).map (fun cs => cp :: cs)
          else .error ()
        else .error ()
      | _ => .error ()
    else if b < 0xF5 then
      match rest with
      | c :: d :: e :: rest2 =>
        if 0x80 ≤ c ∧ c < 0xC0 ∧ 0x80 ≤ d ∧ d < 0xC0 ∧ 0x80 ≤ e ∧ e < 0xC0 then
          let cp := (b - 0xF0) * 262144 + (c - 0x80) * 4096 + (d - 0x80) * 64 + (e - 0x80)
          if 0x10000 ≤ cp ∧ cp ≤ 0x10FFFF then
            (decodeUtf8 rest2).map (fun cs => cp :: cs)
          else .error ()
        else .error ()
      | _ => .error ()
    else .error ()

/-- Render a list of code points as a Lean string (for the printed
templates; code points outside `Char`'s range fall back to `'\0'`). -/
def strOfCps (cps : List Nat) : String :=
  String.mk (cps.map Char.ofNat)

/-- One hexadecimal digit. -/
def hexDigit (n : Nat) : Char :=
  if n < 10 then Char.ofNat (48 + n) else Char.ofNat (87 + n)

/-- Python's `bytes.hex()`: two lowercase hex digits per byte. -/
def hexString (bytes : List Nat) : String :=
  String.mk (bytes.flatMap (fun b => [hexDigit (b / 16 % 16), hexDigit (b % 16)]))

/-- Python sequence slice `s[lo:hi]` for `0 ≤ lo`: indices are clamped to
the sequence, an out-of-range upper bound yields up to end-of-sequence. -/
def pySlice (s : List Nat) (lo hi : Int) : List Nat :=
  (s.drop lo.toNat).take (hi - lo).toNat

/-- `s₂` occurs inside `s₁`. -/
def strContains (s₁ s₂ : String) : Prop :=
  ∃ a b, s₁ = a ++ s₂ ++ b

/-! ### The Syntax Checker (`check_file.py`) -/

/-- What opening a path can yield: the file's bytes, a
`FileNotFoundError`, or some other I/O error. -/
inductive FsEntry where
  | absent
  | file (bytes : List Nat)
  | ioError
deriving DecidableEq

/-- Environment of `check_json_file`: the file system and the external
JSON parser (`json.load`), plus the text of the exception messages the
script interpolates into its diagnostics. -/
structure CEnv (ε α : Type) where
  fs : String → FsEntry
  parse : List Nat → Except ε α
  parseErrMsg : ε → String
  decodeErrMsg : String
  fnfMsg : String
  otherErrMsg : String

/-- The lines `check_json_file` can print, one constructor per f-string
template of the script. -/
inductive CMsg where
  | invalidJson (detail : String)
  | fileNotFound (detail : String)
  | otherError (detail : String)
  | validJson
deriving DecidableEq

/-- The literal text of each printed line of `check_file.py`. -/
def renderC : CMsg → String
  | .invalidJson d => "Invalid JSON file: " ++ d
  | .fileNotFound d => "File not found: " ++ d
  | .otherError d => "Error: " ++ d
  | .validJson => "Valid JSON file"

/-- `check_json_file` of `check_file.py`: open the path as UTF-16 text and
parse it as JSON.  A `ValueError` (malformed JSON, or a decode error —
`UnicodeDecodeError` is a `ValueError`) prints `Invalid JSON file: …`;
`FileNotFoundError` prints `File not found: …`; any other exception prints
`Error: …`; each failure exits 1.  On success the script prints
`Valid JSON file` and falls off the end with exit status 0.
Returns the printed lines and the process exit status. -/
def check_json_file (env : CEnv ε α) (path : String) : List CMsg × Nat :=
  match env.fs path with
  | .absent => ([.fileNotFound env.fnfMsg], 1)
  | .ioError => ([.otherError env.otherErrMsg], 1)
  | .file bytes =>
    match decodeUtf16 bytes with
    | .error _ => ([.invalidJson env.decodeErrMsg], 1)
    | .ok text =>
      match env.parse text with
      | .error e => ([.invalidJson (env.parseErrMsg e)], 1)
      | .ok _ => ([.validJson], 0)

/-! ### The Schema Validator (`verify_json_file.py`) -/

/-- A `json.JSONDecodeError`: the character offset `pos` into the decoded
text, and the exception's message text. -/
structure JsonError where
  pos : Nat
  detail : String

/-- Environment of `verify_json_file.py`: the file system (a path either
resolves to a file's bytes or does not exist), the external JSON parser
(`json.loads`), the external schema validator
(`AddUpdateRequest.model_validate`), the `repr` of a validated response,
and the decode-exception text interpolated into the reading diagnostic. -/
structure VEnv (α β : Type) where
  fs : String → Option (List Nat)
  parse : List Nat → Except JsonError α
  modelValidate : α → Except String β
  renderResp : β → String
  decodeErrMsg : String

/-- The lines `verify_json_file.py` can print, one constructor per
f-string template of the script. -/
inductive VMsg where
  | fileNotExist (path : String)
  | fileEmpty (path : String)
  | firstBytesHex (bytes : List Nat)
  | contentStartsWith (cps : List Nat)
  | parsedOk
  | jsonParsingError (detail : String)
  | errorAtPosition (pos : Nat) (window : List Nat)
  | fileReadingError (detail : String)
  | modelLoadedOk
  | responseRepr (r : String)
  | errorValidating (detail : String)
deriving DecidableEq

/-- The literal text of each printed line of `verify_json_file.py`. -/
def renderV : VMsg → String
  | .fileNotExist p => "Error: File \x27" ++ p ++ "\x27 does not exist"
  | .fileEmpty p => "Error: File \x27" ++ p ++ "\x27 is empty"
  | .firstBytesHex bs => "First bytes (hex): " ++ hexString bs
  | .contentStartsWith cs => "File content starts with: " ++ strOfCps cs ++ "..."
  | .parsedOk => "JSON parsed successfully!"
  | .jsonParsingError d => "JSON parsing error: " ++ d
  | .errorAtPosition p w =>
      "Error at position " ++ toString p ++ ", near: \x27" ++ strOfCps w ++ "\x27"
  | .fileReadingError d => "File reading error: " ++ d
  | .modelLoadedOk => "Data loaded into AddUpdateRequest model successfully!"
  | .responseRepr r => r
  | .errorValidating d => "Error validating data against AddUpdateRequest model: " ++ d

/-- Severity of a record written to `data_restore.log`. -/
inductive Level where
  | info
  | error
deriving DecidableEq

/-- A record written to the log file. -/
structure LogRec where
  level : Level
  msg : String
deriving DecidableEq

/-- The six pipeline stages of the Schema Validator. -/
inductive Stage where
  | sExists
  | sEmpty
  | sPreview
  | sDecode
  | sParse
  | sValidate
deriving DecidableEq

/-- The stages in the order the script runs them. -/
def allStages : List Stage :=
  [.sExists, .sEmpty, .sPreview, .sDecode, .sParse, .sValidate]

/-- Result of `validate_and_load_json`: the printed lines, the stages
entered in order, and either `sys.exit` with a status or the parsed
data. -/
structure VStep (α : Type) where
  prints : List VMsg
  stages : List Stage
  result : Except Nat α

/-- `validate_and_load_json` of `verify_json_file.py`: existence check,
emptiness check, raw 10-byte hex preview, UTF-16 decode (its failure is
caught by the outer handler as a file-reading error), JSON parse (its
failure prints the exception and a `[max(0, pos-20) : pos+20]` context
window of the decoded text).  Every failure prints its diagnostic and
exits 1; on success the parsed data is returned. -/
def validate_and_load_json (env : VEnv α β) (path : String) : VStep α :=
  match env.fs path with
  | none => ⟨[.fileNotExist path], [.sExists], .error 1⟩
  | some bytes =>
    if bytes.length = 0 then
      ⟨[.fileEmpty path], [.sExists, .sEmpty], .error 1⟩
    else
      let preview := VMsg.firstBytesHex (bytes.take 10)
      match decodeUtf16 bytes with
      | .error _ =>
        ⟨[preview, .fileReadingError env.decodeErrMsg],
          [.sExists, .sEmpty, .sPreview, .sDecode], .error 1⟩
      | .ok content =>
        let startsWith := VMsg.contentStartsWith (content.take 50)
        match env.parse content with
        | .error e =>
          ⟨[preview, startsWith, .jsonParsingError e.detail,
             .errorAtPosition e.pos
               (pySlice content (max 0 ((e.pos : Int) - 20)) ((e.pos : Int) + 20))],
            [.sExists, .sEmpty, .sPreview, .sDecode, .sParse], .error 1⟩
        | .ok data =>
          ⟨[preview, startsWith, .parsedOk],
            [.sExists, .sEmpty, .sPreview, .sDecode, .sParse], .ok data⟩

/-- A whole run of the Schema Validator: printed lines, log-file records,
stages entered in order, exit status, and the validated response if any. -/
structure Run (β : Type) where
  prints : List VMsg
  logs : List LogRec
  stages : List Stage
  exitCode : Nat
  response : Option β

/-- `main` of `verify_json_file.py`: run `validate_and_load_json`, then
feed the parsed data to `AddUpdateRequest.model_validate`.  Success logs
`Data loaded successfully` at info severity and prints the validated
structure; a validation exception logs and prints
`Error validating data against AddUpdateRequest model: …` and exits 1.
Falling off the end gives exit status 0. -/
def main (env : VEnv α β) (path : String) : Run β :=
  let v := validate_and_load_json env path
  match v.result with
  | .error c => ⟨v.prints, [], v.stages, c, none⟩
  | .ok data =>
    match env.modelValidate data with
    | .ok resp =>
      ⟨v.prints ++ [.modelLoadedOk, .responseRepr (env.renderResp resp)],
        [⟨.info, "Data loaded successfully"⟩],
        v.stages ++ [.sValidate], 0, some resp⟩
    | .error d =>
      ⟨v.prints ++ [.errorValidating d],
        [⟨.error, "Error validating data against AddUpdateRequest model: " ++ d⟩],
        v.stages ++ [.sValidate], 1, none⟩

/-! ### Concrete instances, used to exhibit runs of the scripts -/

/-- The UTF-16-LE byte string of the text `{"a": 1}`. -/
def utf16Json : List Nat :=
  [0x7b, 0, 0x22, 0, 0x61, 0, 0x22, 0, 0x3a, 0, 0x20, 0, 0x31, 0, 0x7d, 0]

/-- The code points of the text `{"a": 1}`. -/
def cpsJson : List Nat := [0x7b, 0x22, 0x61, 0x22, 0x3a, 0x20, 0x31, 0x7d]

/-- The UTF-8 (here: ASCII) byte string of the JSON text `[1]`. -/
def utf8Json : List Nat := [0x5b, 0x31, 0x5d]

/-- A Syntax Checker environment whose file holds `utf16Json` and whose
parser accepts every text. -/
def cenv1 : CEnv Unit Unit where
  fs := fun _ => .file utf16Json
  parse := fun _ => .ok ()
  parseErrMsg := fun _ => "parse detail"
  decodeErrMsg := "codec detail"
  fnfMsg := "fnf detail"
  otherErrMsg := "other detail"

/-- A Syntax Checker environment in which no path resolves to a file. -/
def cenvMissing : CEnv Unit Unit :=
  { cenv1 with fs := fun _ => .absent }

/-- A Syntax Checker environment whose file holds the UTF-8 bytes of
`[1]` and whose parser accepts exactly the text `[1]`. -/
def cenvUtf8 : CEnv Unit Unit :=
  { cenv1 with
    fs := fun _ => .file utf8Json
    parse := fun t => if t = [0x5b, 0x31, 0x5d] then .ok () else .error () }

/-- A Schema Validator environment whose file holds `utf16Json`, whose
parser and schema validator both accept. -/
def venvOk : VEnv Unit Unit where
  fs := fun _ => some utf16Json
  parse := fun _ => .ok ()
  modelValidate := fun _ => .ok ()
  renderResp := fun _ => "resp repr"
  decodeErrMsg := "codec detail"

/-- A Schema Validator environment in which no path resolves to a file. -/
def venvMissing : VEnv Unit Unit :=
  { venvOk with fs := fun _ => none }

/-- A Schema Validator environment whose file is zero bytes long. -/
def venvEmpty : VEnv Unit Unit :=
  { venvOk with fs := fun _ => some [] }

/-- A Schema Validator environment whose file is a single byte, which is
not a valid UTF-16 sequence. -/
def venvOdd : VEnv Unit Unit :=
  { venvOk with fs := fun _ => some [0x31] }

/-- A Schema Validator environment whose parser fails at offset 2. -/
def venvParseErr : VEnv Unit Unit :=
  { venvOk with parse := fun _ => .error ⟨2, "bad syntax"⟩ }

/-- A Schema Validator environment whose schema validator rejects. -/
def venvSchemaErr : VEnv Unit Unit :=
  { venvOk with modelValidate := fun _ => .error "field missing" }

/-! ### Theorems about the Syntax Checker -/

/-- C1: for every file path whose contents are valid UTF-16-encoded text
that parses as JSON, the Syntax Checker prints `Valid JSON file` and
exits with status 0. -/
theorem checker_accepts_valid_utf16_json {ε α : Type} (env : CEnv ε α) (path : String)
    (bytes text : List Nat) (v : α)
    (hfs : env.fs path = .file bytes)
    (hdec : decodeUtf16 bytes = .ok text)
    (hparse : env.parse text = .ok v) :
    check_json_file env path = ([CMsg.validJson], 0) ∧
    renderC CMsg.validJson = "Valid JSON file" := by
  refine ⟨?_, rfl⟩
  simp [check_json_file, hfs, hdec, hparse]

theorem checker_accepts_valid_utf16_json_witness :
    check_json_file cenv1 "data.json" = ([CMsg.validJson], 0) ∧
    renderC CMsg.validJson = "Valid JSON file" :=
  checker_accepts_valid_utf16_json cenv1 "data.json" utf16Json cpsJson () rfl rfl rfl

/-- C4: every failing one-argument run of the Syntax Checker prints
exactly one diagnostic, which is one of three kinds — `Invalid JSON
file: …` for a `ValueError` (malformed JSON or a decode error),
`File not found: …` for a missing path, and the distinct `Error: …` for
any other I/O or unexpected error — and the three rendered messages are
pairwise distinct. -/
theorem checker_failure_taxonomy {ε α : Type} (env : CEnv ε α) (path : String)
    (hfail : (check_json_file env path).2 = 1) :
    (∃ m, (check_json_file env path).1 = [m] ∧
      ((∃ d, m = CMsg.invalidJson d) ∨ (∃ d, m = CMsg.fileNotFound d) ∨
        (∃ d, m = CMsg.otherError d)) ∧
      (env.fs path = .absent → m = CMsg.fileNotFound env.fnfMsg) ∧
      (env.fs path = .ioError → m = CMsg.otherError env.otherErrMsg) ∧
      (∀ bs, env.fs path = .file bs → decodeUtf16 bs = .error () →
        m = CMsg.invalidJson env.decodeErrMsg) ∧
      (∀ bs text e, env.fs path = .file bs → decodeUtf16 bs = .ok text →
        env.parse text = .error e → m = CMsg.invalidJson (env.parseErrMsg e))) ∧
    (∀ d, strContains (renderC (CMsg.invalidJson d)) "Invalid JSON file") ∧
    (∀ d, strContains (renderC (CMsg.fileNotFound d)) "File not found") ∧
    (∀ d d', renderC (CMsg.invalidJson d) ≠ renderC (CMsg.fileNotFound d')) ∧
    (∀ d d', renderC (CMsg.invalidJson d) ≠ renderC (CMsg.otherError d')) ∧
    (∀ d d', renderC (CMsg.fileNotFound d) ≠ renderC (CMsg.otherError d')) := by
  refine ⟨?_, ?_, ?_, ?_, ?_, ?_⟩
  · cases henv : env.fs path with
    | absent =>
      refine ⟨CMsg.fileNotFound env.fnfMsg, ?_, .inr (.inl ⟨_, rfl⟩), fun _ => rfl,
        ?_, by simp, by simp⟩
      · simp [check_json_file, henv]
      · simp [henv]
    | ioError =>
      refine ⟨CMsg.otherError env.otherErrMsg, ?_, .inr (.inr ⟨_, rfl⟩), ?_, fun _ => rfl,
        by simp, by simp⟩
      · simp [check_json_file, henv]
      · simp [henv]
    | file bytes =>
      simp only [check_json_file, henv] at hfail
      cases hdec : decodeUtf16 bytes with
      | error e =>
        refine ⟨CMsg.invalidJson env.decodeErrMsg, ?_, .inl ⟨_, rfl⟩, by simp, by simp,
          fun _ _ _ => rfl, ?_⟩
        · simp [check_json_file, henv, hdec]
        · intro bs text e' hb hdec2 hparse2
          obtain rfl : bytes = bs := by injection hb
          rw [hdec] at hdec2
          exact absurd hdec2 (by simp)
      | ok text =>
        simp only [hdec] at hfail
        cases hparse : env.parse text with
        | error e =>
          refine ⟨CMsg.invalidJson (env.parseErrMsg e), ?_, .inl ⟨_, rfl⟩, by simp, by simp,
            ?_, ?_⟩
          · simp [check_json_file, henv, hdec, hparse]
          · intro bs hb hdec2
            obtain rfl : bytes = bs := by injection hb
            rw [hdec] at hdec2
            exact absurd hdec2 (by simp)
          · intro bs text' e' hb hdec2 hparse2
            obtain rfl : bytes = bs := by injection hb
            rw [hdec] at hdec2
            obtain rfl : text = text' := by injection hdec2
            rw [hparse] at hparse2
            obtain rfl : e = e' := by injection hparse2
            rfl
        | ok v =>
          simp only [hparse] at hfail
          exact absurd hfail (by simp)
  · exact fun d => ⟨"", ": " ++ d, rfl⟩
  · exact fun d => ⟨"", ": " ++ d, rfl⟩
  · intro d d' h
    have h3 : some 'I' = some 'F' := congrArg (fun s => s.data.head?) h
    simp at h3
  · intro d d' h
    have h3 : some 'I' = some 'E' := congrArg (fun s => s.data.head?) h
    simp at h3
  · intro d d' h
    have h3 : some 'F' = some 'E' := congrArg (fun s => s.data.head?) h
    simp at h3

theorem checker_failure_taxonomy_witness :
    (∃ m, (check_json_file cenvMissing "data.json").1 = [m] ∧
      ((∃ d, m = CMsg.invalidJson d) ∨ (∃ d, m = CMsg.fileNotFound d) ∨
        (∃ d, m = CMsg.otherError d)) ∧
      (cenvMissing.fs "data.json" = .absent → m = CMsg.fileNotFound cenvMissing.fnfMsg) ∧
      (cenvMissing.fs "data.json" = .ioError → m = CMsg.otherError cenvMissing.otherErrMsg) ∧
      (∀ bs, cenvMissing.fs "data.json" = .file bs → decodeUtf16 bs = .error () →
        m = CMsg.invalidJson cenvMissing.decodeErrMsg) ∧
      (∀ bs text e, cenvMissing.fs "data.json" = .file bs → decodeUtf16 bs = .ok text →
        cenvMissing.parse text = .error e →
        m = CMsg.invalidJson (cenvMissing.parseErrMsg e))) ∧
    (∀ d, strContains (renderC (CMsg.invalidJson d)) "Invalid JSON file") ∧
    (∀ d, strContains (renderC (CMsg.fileNotFound d)) "File not found") ∧
    (∀ d d', renderC (CMsg.invalidJson d) ≠ renderC (CMsg.fileNotFound d')) ∧
    (∀ d d', renderC (CMsg.invalidJson d) ≠ renderC (CMsg.otherError d')) ∧
    (∀ d d', renderC (CMsg.fileNotFound d) ≠ renderC (CMsg.otherError d')) :=
  checker_failure_taxonomy cenvMissing "data.json" rfl

/-- C9: a file holding the UTF-8 bytes of the JSON text `[1]` — a valid
UTF-8 JSON document that is not valid UTF-16 — is rejected by the Syntax
Checker at the decode step (the `utf-16` codec fails on it), with exit
status 1. -/
theorem checker_rejects_utf8_json :
    decodeUtf8 utf8Json = .ok [0x5b, 0x31, 0x5d] ∧
    cenvUtf8.parse [0x5b, 0x31, 0x5d] = .ok () ∧
    decodeUtf16 utf8Json = .error () ∧
    check_json_file cenvUtf8 "data.json" =
      ([CMsg.invalidJson cenvUtf8.decodeErrMsg], 1) :=
  ⟨rfl, rfl, rfl, rfl⟩

/-! ### Theorems about the Schema Validator -/

/-- The run of `validate_and_load_json` on a file that exists, is
non-empty, decodes and parses. -/
theorem vstep_ok {α β : Type} (env : VEnv α β) (path : String)
    (bytes content : List Nat) (data : α)
    (hfs : env.fs path = some bytes) (hne : bytes.length ≠ 0)
    (hdec : decodeUtf16 bytes = .ok content)
    (hparse : env.parse content = .ok data) :
    validate_and_load_json env path =
      ⟨[.firstBytesHex (bytes.take 10), .contentStartsWith (content.take 50), .parsedOk],
        [.sExists, .sEmpty, .sPreview, .sDecode, .sParse], .ok data⟩ := by
  simp [validate_and_load_json, hfs, hne, hdec, hparse]

/-- C2: on a well-formed JSON document, schema validation has exactly two
outcomes: conformance logs `Data loaded successfully` at info severity,
prints the validated structure and exits 0; non-conformance logs and
prints an error containing `Error validating data` and exits 1. -/
theorem validator_schema_two_outcomes {α β : Type} (env : VEnv α β) (path : String)
    (bytes content : List Nat) (data : α)
    (hfs : env.fs path = some bytes) (hne : bytes.length ≠ 0)
    (hdec : decodeUtf16 bytes = .ok content)
    (hparse : env.parse content = .ok data) :
    (∀ resp, env.modelValidate data = .ok resp →
      (main env path).exitCode = 0 ∧
      LogRec.mk .info "Data loaded successfully" ∈ (main env path).logs ∧
      VMsg.modelLoadedOk ∈ (main env path).prints ∧
      VMsg.responseRepr (env.renderResp resp) ∈ (main env path).prints) ∧
    (∀ d, env.modelValidate data = .error d →
      (main env path).exitCode = 1 ∧
      (∃ m, LogRec.mk .error m ∈ (main env path).logs ∧
        strContains m "Error validating data") ∧
      VMsg.errorValidating d ∈ (main env path).prints) := by
  have hv := vstep_ok env path bytes content data hfs hne hdec hparse
  constructor
  · intro resp hval
    refine ⟨?_, ?_, ?_, ?_⟩ <;> simp [main, hv, hval]
  · intro d hval
    refine ⟨?_, ?_, ?_⟩
    · simp [main, hv, hval]
    · exact ⟨"Error validating data against AddUpdateRequest model: " ++ d,
        by simp [main, hv, hval],
        ⟨"", " against AddUpdateRequest model: " ++ d, rfl⟩⟩
    · simp [main, hv, hval]

theorem validator_schema_two_outcomes_witness :
    (main venvOk "data.json").exitCode = 0 ∧
    LogRec.mk .info "Data loaded successfully" ∈ (main venvOk "data.json").logs ∧
    (main venvSchemaErr "data.json").exitCode = 1 ∧
    VMsg.errorValidating "field missing" ∈ (main venvSchemaErr "data.json").prints :=
  have h1 := (validator_schema_two_outcomes venvOk "data.json" utf16Json cpsJson ()
    rfl (by decide) rfl rfl).1 () rfl
  have h2 := (validator_schema_two_outcomes venvSchemaErr "data.json" utf16Json cpsJson ()
    rfl (by decide) rfl rfl).2 "field missing" rfl
  ⟨h1.1, h1.2.1, h2.1, h2.2.2⟩

/-- The context window printed by the parse stage: lower bound clamped at
zero, length up to 40. -/
theorem pySlice_window (s : List Nat) (p : Nat) :
    pySlice s (max 0 ((p : Int) - 20)) ((p : Int) + 20)
      = (s.drop (p - 20)).take (p + 20 - (p - 20)) := by
  have h1 : (max 0 ((p : Int) - 20)).toNat = p - 20 := by omega
  have h2 : (((p : Int) + 20) - max 0 ((p : Int) - 20)).toNat = p + 20 - (p - 20) := by omega
  rw [pySlice, h1, h2]

/-- C3: a JSON parse failure in the Schema Validator reports the error
offset and the window `content[max(0, pos-20) : pos+20]` — lower bound
clamped at 0, upper bound not clamped to the text length (slicing past
end-of-text yields up to end-of-sequence) — and the process exits 1. -/
theorem validator_parse_error_window {α β : Type} (env : VEnv α β) (path : String)
    (bytes content : List Nat) (e : JsonError)
    (hfs : env.fs path = some bytes) (hne : bytes.length ≠ 0)
    (hdec : decodeUtf16 bytes = .ok content)
    (hparse : env.parse content = .error e) :
    (main env path).exitCode = 1 ∧
    VMsg.errorAtPosition e.pos
        (pySlice content (max 0 ((e.pos : Int) - 20)) ((e.pos : Int) + 20))
      ∈ (main env path).prints ∧
    pySlice content (max 0 ((e.pos : Int) - 20)) ((e.pos : Int) + 20)
      = (content.drop (e.pos - 20)).take (e.pos + 20 - (e.pos - 20)) ∧
    (content.length ≤ e.pos + 20 →
      pySlice content (max 0 ((e.pos : Int) - 20)) ((e.pos : Int) + 20)
        = content.drop (e.pos - 20)) ∧
    (e.pos < 20 →
      pySlice content (max 0 ((e.pos : Int) - 20)) ((e.pos : Int) + 20)
        = content.take (e.pos + 20)) := by
  refine ⟨?_, ?_, pySlice_window content e.pos, ?_, ?_⟩
  · simp [main, validate_and_load_json, hfs, hne, hdec, hparse]
  · simp [main, validate_and_load_json, hfs, hne, hdec, hparse]
  · intro hlen
    rw [pySlice_window]
    apply List.take_of_length_le
    rw [List.length_drop]
    omega
  · intro hp
    rw [pySlice_window]
    have h0 : e.pos - 20 = 0 := by omega
    simp [h0]

theorem validator_parse_error_window_witness :
    (main venvParseErr "data.json").exitCode = 1 ∧
    VMsg.errorAtPosition 2 (pySlice cpsJson (max 0 ((2 : Int) - 20)) ((2 : Int) + 20))
      ∈ (main venvParseErr "data.json").prints :=
  have h := validator_parse_error_window venvParseErr "data.json" utf16Json cpsJson
    ⟨2, "bad syntax"⟩ rfl (by decide) rfl rfl
  ⟨h.1, h.2.1⟩

/-- C5: every run of the Schema Validator enters its stages strictly in
the order existence check, emptiness check, raw byte preview, decode,
parse, schema validation (the list of stages entered is always a prefix
of that order, so nothing runs after a failing stage); the exit status is
0 or 1, and status 0 occurs only when all six stages ran. -/
theorem validator_stage_order {α β : Type} (env : VEnv α β) (path : String) :
    (∃ rest, (main env path).stages ++ rest = allStages) ∧
    ((main env path).exitCode = 0 ∨ (main env path).exitCode = 1) ∧
    ((main env path).exitCode = 0 → (main env path).stages = allStages) := by
  cases hfs : env.fs path with
  | none =>
    refine ⟨⟨[.sEmpty, .sPreview, .sDecode, .sParse, .sValidate], ?_⟩, .inr ?_, ?_⟩ <;>
      simp [main, validate_and_load_json, hfs, allStages]
  | some bytes =>
    by_cases hlen : bytes.length = 0
    · refine ⟨⟨[.sPreview, .sDecode, .sParse, .sValidate], ?_⟩, .inr ?_, ?_⟩ <;>
        simp [main, validate_and_load_json, hfs, hlen, allStages]
    · cases hdec : decodeUtf16 bytes with
      | error e =>
        refine ⟨⟨[.sParse, .sValidate], ?_⟩, .inr ?_, ?_⟩ <;>
          simp [main, validate_and_load_json, hfs, hlen, hdec, allStages]
      | ok content =>
        cases hparse : env.parse content with
        | error e =>
          refine ⟨⟨[.sValidate], ?_⟩, .inr ?_, ?_⟩ <;>
            simp [main, validate_and_load_json, hfs, hlen, hdec, hparse, allStages]
        | ok data =>
          cases hval : env.modelValidate data with
          | ok resp =>
            refine ⟨⟨[], ?_⟩, .inl ?_, fun _ => ?_⟩ <;>
              simp [main, validate_and_load_json, hfs, hlen, hdec, hparse, hval, allStages]
          | error d =>
            refine ⟨⟨[], ?_⟩, .inr ?_, ?_⟩ <;>
              simp [main, validate_and_load_json, hfs, hlen, hdec, hparse, hval, allStages]

theorem validator_stage_order_witness :
    (∃ rest, (main venvOk "data.json").stages ++ rest = allStages) ∧
    ((main venvOk "data.json").exitCode = 0 ∨ (main venvOk "data.json").exitCode = 1) ∧
    ((main venvOk "data.json").exitCode = 0 → (main venvOk "data.json").stages = allStages) :=
  validator_stage_order venvOk "data.json"

/-- C6: an existing zero-byte file makes the Schema Validator exit 1 with
the single diagnostic `Error: File '…' is empty` (whose text contains
`is empty`), entering only the existence and emptiness stages — the file
is neither decoded nor parsed. -/
theorem validator_empty_file {α β : Type} (env : VEnv α β) (path : String)
    (bytes : List Nat) (hfs : env.fs path = some bytes) (hlen : bytes.length = 0) :
    (main env path).exitCode = 1 ∧
    (main env path).prints = [VMsg.fileEmpty path] ∧
    strContains (renderV (VMsg.fileEmpty path)) "is empty" ∧
    (main env path).stages = [Stage.sExists, Stage.sEmpty] := by
  refine ⟨?_, ?_, ?_, ?_⟩
  · simp [main, validate_and_load_json, hfs, hlen]
  · simp [main, validate_and_load_json, hfs, hlen]
  · refine ⟨("Error: File \x27" ++ path) ++ "\x27 ", "", String.ext ?_⟩
    simp [renderV, String.data_append, List.append_assoc]
  · simp [main, validate_and_load_json, hfs, hlen]

theorem validator_empty_file_witness :
    (main venvEmpty "data.json").exitCode = 1 ∧
    (main venvEmpty "data.json").prints = [VMsg.fileEmpty "data.json"] ∧
    strContains (renderV (VMsg.fileEmpty "data.json")) "is empty" ∧
    (main venvEmpty "data.json").stages = [Stage.sExists, Stage.sEmpty] :=
  validator_empty_file venvEmpty "data.json" [] rfl rfl

/-- C7: an existing non-empty file whose bytes are not valid UTF-16 makes
the decode stage fail; the failure is reported as the generic
`File reading error: …` (never as a JSON parse diagnostic) and the
process exits 1. -/
theorem validator_decode_error {α β : Type} (env : VEnv α β) (path : String)
    (bytes : List Nat) (hfs : env.fs path = some bytes) (hne : bytes.length ≠ 0)
    (hdec : decodeUtf16 bytes = .error ()) :
    (main env path).exitCode = 1 ∧
    (main env path).prints =
      [VMsg.firstBytesHex (bytes.take 10), VMsg.fileReadingError env.decodeErrMsg] ∧
    (∀ d, VMsg.jsonParsingError d ∉ (main env path).prints) ∧
    (∀ p w, VMsg.errorAtPosition p w ∉ (main env path).prints) ∧
    (main env path).stages =
      [Stage.sExists, Stage.sEmpty, Stage.sPreview, Stage.sDecode] := by
  refine ⟨?_, ?_, ?_, ?_, ?_⟩ <;> simp [main, validate_and_load_json, hfs, hne, hdec]

theorem validator_decode_error_witness :
    (main venvOdd "data.json").exitCode = 1 ∧
    (main venvOdd "data.json").prints =
      [VMsg.firstBytesHex [0x31], VMsg.fileReadingError venvOdd.decodeErrMsg] ∧
    (main venvOdd "data.json").stages =
      [Stage.sExists, Stage.sEmpty, Stage.sPreview, Stage.sDecode] :=
  have h := validator_decode_error venvOdd "data.json" [0x31] rfl (by decide) rfl
  ⟨h.1, h.2.1, h.2.2.2.2⟩

/-- C8: on every existing non-empty file the preview stage prints the hex
rendering of the first 10 bytes (all bytes when the file is shorter) and
never fails — the decode stage that follows it is always entered. -/
theorem validator_preview {α β : Type} (env : VEnv α β) (path : String)
    (bytes : List Nat) (hfs : env.fs path = some bytes) (hne : bytes.length ≠ 0) :
    VMsg.firstBytesHex (bytes.take 10) ∈ (main env path).prints ∧
    (bytes.take 10).length = min 10 bytes.length ∧
    renderV (VMsg.firstBytesHex (bytes.take 10))
      = "First bytes (hex): " ++ hexString (bytes.take 10) ∧
    Stage.sPreview ∈ (main env path).stages ∧
    Stage.sDecode ∈ (main env path).stages := by
  have hm : VMsg.firstBytesHex (bytes.take 10) ∈ (main env path).prints ∧
      Stage.sPreview ∈ (main env path).stages ∧
      Stage.sDecode ∈ (main env path).stages := by
    cases hdec : decodeUtf16 bytes with
    | error e =>
      refine ⟨?_, ?_, ?_⟩ <;> simp [main, validate_and_load_json, hfs, hne, hdec]
    | ok content =>
      cases hparse : env.parse content with
      | error e =>
        refine ⟨?_, ?_, ?_⟩ <;> simp [main, validate_and_load_json, hfs, hne, hdec, hparse]
      | ok data =>
        cases hval : env.modelValidate data with
        | ok r =>
          refine ⟨?_, ?_, ?_⟩ <;>
            simp [main, validate_and_load_json, hfs, hne, hdec, hparse, hval]
        | error d =>
          refine ⟨?_, ?_, ?_⟩ <;>
            simp [main, validate_and_load_json, hfs, hne, hdec, hparse, hval]
  exact ⟨hm.1, List.length_take _ _, rfl, hm.2.1, hm.2.2⟩

theorem validator_preview_witness :
    VMsg.firstBytesHex (utf16Json.take 10) ∈ (main venvOk "data.json").prints ∧
    (utf16Json.take 10).length = min 10 utf16Json.length :=
  have h := validator_preview venvOk "data.json" utf16Json rfl (by decide)
  ⟨h.1, h.2.1⟩

/-- C10: the Schema Validator writes to the log file only in the schema
validation stage — a run that never enters that stage (missing file,
empty file, decode error, or parse error) writes no log record. -/
theorem validator_logs_only_in_validation {α β : Type} (env : VEnv α β) (path : String)
    (h : Stage.sValidate ∉ (main env path).stages) :
    (main env path).logs = [] := by
  cases hfs : env.fs path with
  | none => simp [main, validate_and_load_json, hfs]
  | some bytes =>
    by_cases hlen : bytes.length = 0
    · simp [main, validate_and_load_json, hfs, hlen]
    · cases hdec : decodeUtf16 bytes with
      | error e => simp [main, validate_and_load_json, hfs, hlen, hdec]
      | ok content =>
        cases hparse : env.parse content with
        | error e => simp [main, validate_and_load_json, hfs, hlen, hdec, hparse]
        | ok data =>
          exfalso
          apply h
          cases hval : env.modelValidate data with
          | ok r => simp [main, validate_and_load_json, hfs, hlen, hdec, hparse, hval]
          | error d => simp [main, validate_and_load_json, hfs, hlen, hdec, hparse, hval]

theorem validator_logs_only_in_validation_witness :
    (main venvMissing "data.json").logs = [] :=
  validator_logs_only_in_validation venvMissing "data.json" (by decide)

end SysInv
